import Mathlib

/-!
Verification of the Sentinel procurement-decision repository.

This file gives a shallow embedding, in Lean 4, of the parts of the
repository that the specification's claims are about:

* the Next.js server action `getLiveMarketData` / `getMockData` /
  `getScannerStatus` (dashboard live feed read from the Redis hot cache);
* the server action `getDecisionHistory` together with the SQL query it
  runs against the `ai_signals` audit table (schema from `init.sql`);
* the static dashboard's `createMaterialCard` renderer;
* the decision pipeline's optimizer, model selector and Croston
  state machine.  The Python sources of those components
  (`shared/logic/optimizer.py`, `services/ai_engine/src/ai_models/
  model_factory.py`) are not part of the repository snapshot, so they
  are modelled from the specification, as marked in their doc comments.

Modelling conventions: JavaScript numbers are modelled as `ℚ`
(the claims under scrutiny do not depend on binary floating-point
rounding); `parseFloat` and `Date.toISOString` are abstract parameters
`pf : String → ℚ` and `iso : ℕ → String`; `Math.random()` is a stream
`rng : ℕ → ℚ` of draws, consumed in program order; a Redis connection
is a partial map `Cache := String → Option String` plus a boolean for
reachability; a thrown exception in a `try/catch` block is modelled by
the corresponding `Except`/flag argument.
-/

/-- JS number. -/
abbrev JsNum := ℚ

/-- The Redis hot cache: key → stored string value (`none` = key absent). -/
abbrev Cache := String → Option String

/-- The material list hard-coded in `getMarketData.ts`. -/
def MATERIALS : List String :=
  ["Copper", "Aluminum", "XLPE Polymer", "PVC Compound",
   "Mica Tape", "Steel Tape", "Lead Ingots", "Masterbatch"]

/-- The `MaterialData` interface of `getMarketData.ts`.  `confidence` is
an optional field there (`confidence?: number`). -/
structure MaterialData where
  name : String
  price : JsNum
  trend : JsNum
  signal : String
  forecast : JsNum
  confidence : Option JsNum
  deriving Repr, DecidableEq

/-- Redis key built by `getLiveMarketData`:
`live:${country}:${mat}:${field}`. -/
def liveKey (country mat field : String) : String :=
  "live:" ++ country ++ ":" ++ mat ++ ":" ++ field

/-- `getMockData` of `getMarketData.ts`: fabricated fallback feed.  Each
material draws four `Math.random()` values in program order (price,
trend, signal, forecast); confidence is the constant 85. -/
def getMockData (rng : ℕ → ℚ) : List MaterialData :=
  MATERIALS.enum.map (fun p =>
    { name := p.2
      price := (⌊rng (4 * p.1) * 5000⌋ : ℚ) + 1000
      trend := rng (4 * p.1 + 1) * 5
      signal := if rng (4 * p.1 + 2) > 1/2 then "BUY" else "WAIT"
      forecast := (⌊rng (4 * p.1 + 3) * 6000⌋ : ℚ) + 1000
      confidence := some 85 })

/-- `getLiveMarketData` of `getMarketData.ts`.  `ok = false` models the
Redis pipeline throwing (the `catch` branch).  The pipeline queues five
keys per material; `hasData` checks only the very first result
(`results[0][1] !== null`, i.e. the first material's `price` key); the
parse loop reads `price`, `signal`, `forecast`, `confidence` back but
hard-codes `trend: 0`. -/
def getLiveMarketData (ok : Bool) (c : Cache) (pf : String → ℚ)
    (rng : ℕ → ℚ) : List MaterialData :=
  if ok then
    let results : List (Option String) :=
      (MATERIALS.map (fun mat =>
        [c (liveKey "Egypt" mat "price"),
         c (liveKey "Egypt" mat "trend"),
         c (liveKey "Egypt" mat "signal"),
         c (liveKey "Egypt" mat "forecast"),
         c (liveKey "Egypt" mat "confidence")])).flatten
    let hasData : Bool :=
      decide (0 < results.length) && (results.headD none).isSome
    if hasData then
      let parseResF : ℕ → ℚ := fun idx =>
        match results.getD idx none with
        | some v => pf v
        | none => 0
      let parseResS : ℕ → String := fun idx =>
        match results.getD idx none with
        | some v => v
        | none => "N/A"
      (List.range MATERIALS.length).map (fun i =>
        { name := MATERIALS.getD i ""
          price := parseResF (i * 5)
          trend := 0
          signal := parseResS (i * 5 + 2)
          forecast := parseResF (i * 5 + 3)
          confidence := some (parseResF (i * 5 + 4)) })
    else getMockData rng
  else getMockData rng

/-- One entry of the feed as read from the cache: the per-material reads
the parse loop performs when data is present. -/
def readLiveEntry (c : Cache) (pf : String → ℚ) (mat : String) : MaterialData :=
  { name := mat
    price := match c (liveKey "Egypt" mat "price") with
             | some v => pf v | none => 0
    trend := 0
    signal := match c (liveKey "Egypt" mat "signal") with
              | some v => v | none => "N/A"
    forecast := match c (liveKey "Egypt" mat "forecast") with
                | some v => pf v | none => 0
    confidence := some (match c (liveKey "Egypt" mat "confidence") with
                        | some v => pf v | none => 0) }

/-- The feed obtained by reading every material's entry from the cache. -/
def liveFromCache (c : Cache) (pf : String → ℚ) : List MaterialData :=
  MATERIALS.map (readLiveEntry c pf)

/-- JavaScript `x || 85` applied to the optional `confidence` field of a
`MaterialData` (in JS both a missing field and the number `0` are falsy,
so both fall back to 85). -/
def jsOrConf (c : Option JsNum) : JsNum :=
  match c with
  | some v => if v = 0 then 85 else v
  | none => 85

/-- The `reduce` accumulating `totalConf` in `getScannerStatus`. -/
def totalConf (l : List MaterialData) : ℚ :=
  l.foldl (fun acc m => acc + jsOrConf m.confidence) 0

/-- `Math.floor(totalConf / (materials.length || 1))` in
`getScannerStatus`. -/
def avgConf (l : List MaterialData) : ℤ :=
  ⌊totalConf l / (if l.length = 0 then 1 else (l.length : ℚ))⌋

/-- Return value of `getScannerStatus`. -/
structure ScannerStatus where
  demand : ℤ
  confidence : ℤ
  deriving Repr, DecidableEq

/-- `getScannerStatus` of `getMarketData.ts`: averages the (defaulted)
confidences of the live feed; `demandDraw` is the `Math.random()` value
used for the still-simulated demand figure. -/
def getScannerStatus (ok : Bool) (c : Cache) (pf : String → ℚ)
    (rng : ℕ → ℚ) (demandDraw : ℚ) : ScannerStatus :=
  { demand := 10000 + ⌊demandDraw * 90000⌋
    confidence := avgConf (getLiveMarketData ok c pf rng) }

/-! ## The audit store (`init.sql`) and the history view
(`getDecisionHistory.ts`) -/

/-- Columns of the `ai_signals` table as declared in `init.sql`. -/
def ai_signals_columns : List String :=
  ["id", "material_id", "country_id", "input_price", "predicted_demand",
   "decision", "confidence_score", "created_at"]

/-- A row of the `ai_signals` audit table.  `input_price` and
`predicted_demand` are `DECIMAL` columns; the node-postgres driver
returns them to JavaScript as strings, which is how they are modelled
here.  `created_at` is the row's timestamp (epoch). -/
structure SignalRow where
  material_id : ℕ
  country_id : ℕ
  input_price : String
  predicted_demand : String
  decision : String
  confidence_score : String
  created_at : ℕ
  deriving Repr, DecidableEq

/-- The referenced state of the database: the two master tables
(`id`, `name`) and the `ai_signals` table. -/
structure Db where
  materials : List (ℕ × String)
  countries : List (ℕ × String)
  ai_signals : List SignalRow
  deriving Repr

/-- A row of the result set of the SQL query inside
`getDecisionHistory` (aliases `timestamp`, `material`, `country`,
`price`, `prediction`, `signal`). -/
structure QRow where
  created_at : ℕ
  material : String
  country : String
  price : String
  prediction : String
  signal : String
  deriving Repr, DecidableEq

/-- Semantics of the SQL query of `getDecisionHistory`: inner-join
`ai_signals` with `materials` and `countries` on their primary keys
(`id` is a unique `SERIAL` key, so `find?` gives the join partner),
`ORDER BY s.created_at DESC` (modelled by a stable sort on the
most-recent-first order), `LIMIT 10`. -/
def historyQuery (db : Db) : List QRow :=
  let joined := db.ai_signals.filterMap (fun s =>
    match db.materials.find? (fun p => p.1 == s.material_id),
          db.countries.find? (fun p => p.1 == s.country_id) with
    | some m, some c =>
        some ⟨s.created_at, m.2, c.2, s.input_price, s.predicted_demand,
              s.decision⟩
    | _, _ => none)
  (joined.insertionSort (fun a b => b.created_at ≤ a.created_at)).take 10

/-- The `DecisionRecord` rows returned to the client (the `id` field of
the TS interface is never populated by the query, which selects no `id`
column, so it is omitted here). -/
structure DecisionRecord where
  material : String
  country : String
  price : ℚ
  prediction : ℚ
  signal : String
  timestamp : String
  deriving Repr, DecidableEq

/-- Marker for a failed database call (the `catch` branch). -/
inductive DbFailure where
  | error : String → DbFailure
  deriving Repr, DecidableEq

/-- `getDecisionHistory` of `getDecisionHistory.ts`: on any query
failure it returns `[]`; on success it maps each result row, parsing
`price` and `prediction` with `parseFloat` (`pf`) and serializing the
timestamp with `toISOString` (`iso`). -/
def getDecisionHistory (pf : String → ℚ) (iso : ℕ → String)
    (q : Except DbFailure Db) : List DecisionRecord :=
  match q with
  | .error _ => []
  | .ok db =>
      (historyQuery db).map (fun r =>
        ⟨r.material, r.country, pf r.price, pf r.prediction, r.signal,
         iso r.created_at⟩)


/-! ## The static dashboard renderer (`static/js/app.js`, the
`createMaterialCard` / `generateMockData` pair of the embedded
front-end script) -/

/-- Input object of `createMaterialCard` (`mat`): the fields the
renderer touches, each optional because the JS object may omit them. -/
structure CardInput where
  name : Option String
  material : Option String
  price : Option JsNum
  input_price : Option JsNum
  trend : Option JsNum
  decision : Option String
  deriving Repr, DecidableEq

/-- JavaScript `a || b` on an optional string (missing and `""` are
falsy). -/
def jsOrStr (a : Option String) (b : String) : String :=
  match a with
  | some s => if s = "" then b else s
  | none => b

/-- The parts of the DOM node built by `createMaterialCard` that carry
the decision: the CSS class and the badge text. -/
structure Card where
  decisionClass : String
  badge : String
  deriving Repr, DecidableEq

/-- `createMaterialCard` of the static dashboard script: maps the
decision to one of the classes `buy`/`hold`/`wait` (default `wait`)
and renders the badge as `${mat.decision || 'WAIT'}`. -/
def createMaterialCard (mat : CardInput) : Card :=
  let decisionClass :=
    if mat.decision = some "BUY" then "buy"
    else if mat.decision = some "HOLD" then "hold"
    else "wait"
  ⟨decisionClass, jsOrStr mat.decision "WAIT"⟩

/-- `generateMockData` of the static dashboard script: the five
hard-coded demo cards. -/
def generateMockData : List CardInput :=
  [⟨some "Copper (LME)", none, some (854050/100), none, some (12/10), some "BUY"⟩,
   ⟨some "PVC Resin", none, some 920, none, some (-5/10), some "WAIT"⟩,
   ⟨some "Aluminum", none, some 2150, none, some (1/10), some "HOLD"⟩,
   ⟨some "XLPE", none, some (110025/100), none, some (25/10), some "BUY"⟩,
   ⟨some "GSW Steel", none, some 650, none, some (-12/10), some "WAIT"⟩]

/-! ## The Procurement Optimizer

Modelled from the spec: the optimizer source
(`shared/logic/optimizer.py`, `SentinelOptimizer`) is not in the
repository snapshot; the definitions below follow spec §4.4 —
minimize `Price(t_delivery)·Qty + HoldingCost·(Inventory+Qty)` subject
to `Inventory + Qty ≥ SafetyStock(risk, lead_time)` and `Qty ≥ 0`,
price evaluated at the delivery date `now + lead_time_days`, decision
mapping by price trend, inventory position and policy flag. -/

/-- The required policy flag of spec §4.4. -/
inductive Policy where
  | aggressive
  | conservative
  deriving Repr, DecidableEq

/-- The closed decision enumeration of the spec's data model. -/
inductive Decision where
  | BUY
  | WAIT
  | HOLD
  deriving Repr, DecidableEq

/-- String form of a decision, as persisted in the `decision` column
and shown on the dashboard. -/
def Decision.serialize : Decision → String
  | .BUY => "BUY"
  | .WAIT => "WAIT"
  | .HOLD => "HOLD"

/-- The terminal `ProcurementDecision` artifact (spec data model):
decision, recommended quantity (only for BUY), rationale. -/
structure ProcurementDecision where
  decision : Decision
  quantity : Option ℚ
  rationale : String
  deriving Repr, DecidableEq

/-- Modelled from the spec: `SafetyStock(risk, lead_time_days)`
increases monotonically with the stockout risk (spec §4.4). -/
def safetyStock (risk : ℚ) (leadTimeDays : ℕ) : ℚ :=
  (1 + risk) * leadTimeDays

/-- Modelled from the spec: `optimize(forecast, risk, current_inventory,
lead_time_days, policy)` of spec §4.4.  The price term is the forecast
at the delivery date `now + lead_time_days`; the price trend compares
that delivery-date forecast against the current price; the minimal
feasible quantity of the linear program is `max 0 (SafetyStock − Inv)`. -/
def optimize (forecast : ℕ → ℚ) (currentPrice : ℚ) (risk : ℚ)
    (inventory : ℚ) (leadTimeDays : ℕ) (policy : Policy) :
    ProcurementDecision :=
  let priceAtDelivery := forecast leadTimeDays
  let trendUp := currentPrice < priceAtDelivery
  let ss := safetyStock risk leadTimeDays
  let qty := max 0 (ss - inventory)
  if trendUp then
    if inventory < ss then
      ⟨.BUY, some qty, "buy now to beat the price rise"⟩
    else
      match policy with
      | .aggressive => ⟨.BUY, some qty, "hedging / strategic stockpile"⟩
      | .conservative => ⟨.HOLD, none, "stock adequate, avoid holding cost"⟩
  else
    if inventory < ss then
      ⟨.BUY, some qty, "replenish to safety stock"⟩
    else
      ⟨.WAIT, none, "price falling and stock adequate"⟩

/-! ## Model Selector & Strategies

Modelled from the spec: the model factory source
(`services/ai_engine/src/ai_models/model_factory.py`) is not in the
repository snapshot; the definitions below follow spec §4.2 — a closed
tagged-variant over the three categories `Polymer` (oil-linked
regression), `Shielding` (sequence model over a min-max-normalized
window) and `Screening` (intermittent demand), selection failing with
`UnknownCategory` for anything else. -/

/-- Failure of `ModelSelector.select` (spec §4.2). -/
inductive SelectError where
  | UnknownCategory
  deriving Repr, DecidableEq

/-- The closed strategy variant (spec §9 design note: a closed tagged
variant, never open runtime dispatch). -/
inductive Strategy where
  | gbm
  | lstm
  | croston
  deriving Repr, DecidableEq

/-- The fixed category enumeration of the reference configuration. -/
def categories : List String := ["Polymer", "Shielding", "Screening"]

/-- Modelled from the spec: `ModelSelector.select` — category name to
strategy, `UnknownCategory` for a category outside the enumeration. -/
def select (category : String) : Except SelectError Strategy :=
  if category = "Polymer" then .ok .gbm
  else if category = "Shielding" then .ok .lstm
  else if category = "Screening" then .ok .croston
  else .error .UnknownCategory

/-- A `PredictionResult` (spec data model): forecast value and a
confidence score in [0,100]. -/
structure PredictionResult where
  forecast : ℚ
  confidence : ℚ
  deriving Repr, DecidableEq

/-- The prediction context: the union of the inputs the three
strategies read (feature vector for the regression variant, rolling
window and net output for the sequence variant, smoothed state for the
intermittent-demand variant). -/
structure PredictCtx where
  currentPrice : ℚ
  laggedDriverPrice : ℚ
  month : ℚ
  shippingIndex : ℚ
  residualStd : ℚ
  window : List ℚ
  net : List ℚ → ℚ × ℚ
  crostonP : ℚ
  crostonZ : ℚ

/-- Clamp a raw confidence into [0,100]. -/
def clampConf (x : ℚ) : ℚ := max 0 (min 100 x)

/-- Modelled from the spec: min-max normalization of the rolling window
using the window's own min/max, re-derived per call (spec §4.2,
sequence variant). -/
def minMaxNormalize (w : List ℚ) : List ℚ :=
  let lo := w.foldr min (w.headD 0)
  let hi := w.foldr max (w.headD 0)
  w.map (fun x => if hi = lo then 0 else (x - lo) / (hi - lo))

/-- Modelled from the spec: `Strategy.predict` for each variant
(spec §4.2): the regression variant combines the feature vector and
derives its confidence upstream from the residual error; the sequence
variant runs the net on the normalized window and de-normalizes; the
intermittent variant forecasts the demand rate `Z / P`. -/
def predict (s : Strategy) (ctx : PredictCtx) : PredictionResult :=
  match s with
  | .gbm =>
      ⟨(ctx.currentPrice + ctx.laggedDriverPrice + ctx.month
          + ctx.shippingIndex) / 4,
       clampConf (100 - ctx.residualStd)⟩
  | .lstm =>
      let lo := ctx.window.foldr min (ctx.window.headD 0)
      let hi := ctx.window.foldr max (ctx.window.headD 0)
      let out := ctx.net (minMaxNormalize ctx.window)
      ⟨lo + (hi - lo) * out.1, clampConf (out.2 * 100)⟩
  | .croston =>
      ⟨if ctx.crostonP = 0 then 0 else ctx.crostonZ / ctx.crostonP,
       clampConf (100 * ctx.crostonZ / (1 + ctx.crostonZ))⟩

/-! ## The intermittent-demand (Croston) state machine

Modelled from the spec: the Croston implementation
(`SentinelLumpyModel`) is not in the repository snapshot; the state
machine below follows spec §4.2 (intermittent-demand variant). -/

/-- Croston state: smoothed inter-arrival interval `P`, smoothed order
size `Z`, elapsed days since the last non-zero observation `E`. -/
structure CrostonState where
  P : ℚ
  Z : ℚ
  E : ℕ
  deriving Repr, DecidableEq

/-- One observation: either a non-zero demand of size `s` arriving
after an interval of `d` days, or a zero-demand day. -/
inductive CrostonObs where
  | demand (d : ℚ) (s : ℚ)
  | zero
  deriving Repr, DecidableEq

/-- Modelled from the spec: the transition of spec §4.2 — on a non-zero
demand of size `s` after interval `d`: `P ← α·d + (1−α)·P`,
`Z ← α·s + (1−α)·Z`, `E ← 0`; on a zero observation: `E ← E + 1`. -/
def crostonStep (α : ℚ) (st : CrostonState) : CrostonObs → CrostonState
  | .demand d s => ⟨α * d + (1 - α) * st.P, α * s + (1 - α) * st.Z, 0⟩
  | .zero => ⟨st.P, st.Z, st.E + 1⟩

/-- A run of the state machine over a fixed observation sequence. -/
def runCroston (α : ℚ) (st : CrostonState) (obs : List CrostonObs) :
    CrostonState :=
  obs.foldl (crostonStep α) st

/-! ## Helper lemmas -/

lemma getLiveMarketData_cacheHit (c : Cache) (pf : String → ℚ)
    (rng : ℕ → ℚ) (v : String)
    (hv : c (liveKey "Egypt" "Copper" "price") = some v) :
    getLiveMarketData true c pf rng = liveFromCache c pf := by
  simp only [getLiveMarketData, liveFromCache, readLiveEntry, MATERIALS,
    List.map_cons, List.map_nil, List.flatten_cons, List.flatten_nil,
    List.cons_append, List.nil_append, List.headD_cons, hv,
    Option.isSome_some, if_true]
  norm_num [List.range_succ]

lemma getLiveMarketData_cacheMiss (c : Cache) (pf : String → ℚ)
    (rng : ℕ → ℚ)
    (hv : c (liveKey "Egypt" "Copper" "price") = none) :
    getLiveMarketData true c pf rng = getMockData rng := by
  simp only [getLiveMarketData, MATERIALS, List.map_cons, List.map_nil,
    List.flatten_cons, List.flatten_nil, List.cons_append, List.nil_append,
    List.headD_cons, hv, Option.isSome_none, Bool.and_false, if_true]
  rfl

lemma historyQuery_sorted (db : Db) :
    List.Sorted (fun a b : QRow => b.created_at ≤ a.created_at)
      (historyQuery db) := by
  unfold historyQuery
  apply List.Pairwise.sublist (List.take_sublist _ _)
  haveI : IsTotal QRow (fun a b => b.created_at ≤ a.created_at) :=
    ⟨fun a b => le_total b.created_at a.created_at⟩
  haveI : IsTrans QRow (fun a b => b.created_at ≤ a.created_at) :=
    ⟨fun _ _ _ hab hbc => le_trans hbc hab⟩
  exact List.sorted_insertionSort _ _

lemma historyQuery_mem {db : Db} {q : QRow} (hq : q ∈ historyQuery db) :
    ∃ s ∈ db.ai_signals, ∃ m ∈ db.materials, ∃ cn ∈ db.countries,
      m.1 = s.material_id ∧ cn.1 = s.country_id ∧
      q = ⟨s.created_at, m.2, cn.2, s.input_price, s.predicted_demand,
           s.decision⟩ := by
  unfold historyQuery at hq
  have hq2 := List.take_subset _ _ hq
  rw [(List.perm_insertionSort _ _).mem_iff] at hq2
  rcases List.mem_filterMap.mp hq2 with ⟨s, hs, hmk⟩
  rcases h1 : db.materials.find? (fun p => p.1 == s.material_id) with _ | m
  · rw [h1] at hmk; exact absurd hmk (by simp)
  rcases h2 : db.countries.find? (fun p => p.1 == s.country_id) with _ | cn
  · rw [h1, h2] at hmk; exact absurd hmk (by simp)
  rw [h1, h2] at hmk
  refine ⟨s, hs, m, List.mem_of_find?_eq_some h1, cn,
    List.mem_of_find?_eq_some h2, ?_, ?_, ?_⟩
  · have := List.find?_some h1; simpa using this
  · have := List.find?_some h2; simpa using this
  · simpa using hmk.symm

lemma jsOrConf_bounds (oc : Option JsNum)
    (h : ∀ v, oc = some v → 0 ≤ v ∧ v ≤ 100) :
    0 ≤ jsOrConf oc ∧ jsOrConf oc ≤ 100 := by
  cases oc with
  | none => refine ⟨by simp [jsOrConf], by simp [jsOrConf]; norm_num⟩
  | some v =>
      rcases h v rfl with ⟨h0, h1⟩
      by_cases hz : v = 0
      · refine ⟨by simp [jsOrConf, hz], by simp [jsOrConf, hz]; norm_num⟩
      · simp [jsOrConf, hz, h0, h1]

lemma foldlConf_bounds (l : List MaterialData) :
    ∀ acc : ℚ,
      (∀ m ∈ l, 0 ≤ jsOrConf m.confidence ∧ jsOrConf m.confidence ≤ 100) →
      acc ≤ l.foldl (fun a m => a + jsOrConf m.confidence) acc ∧
      l.foldl (fun a m => a + jsOrConf m.confidence) acc ≤
        acc + 100 * l.length := by
  induction l with
  | nil => intro acc _; simp
  | cons hd tl ih =>
      intro acc h
      have hhd := h hd (by simp)
      have htl := ih (acc + jsOrConf hd.confidence)
        (fun m hm => h m (by simp [hm]))
      constructor
      · exact le_trans (by linarith [hhd.1]) htl.1
      · calc List.foldl (fun a m => a + jsOrConf m.confidence)
              (acc + jsOrConf hd.confidence) tl
            ≤ acc + jsOrConf hd.confidence + 100 * tl.length := htl.2
          _ ≤ acc + 100 * (tl.length + 1) := by linarith [hhd.2]
          _ = acc + 100 * (hd :: tl).length := by push_cast [List.length_cons]; ring

lemma avgConf_bounds (l : List MaterialData)
    (h : ∀ m ∈ l, 0 ≤ jsOrConf m.confidence ∧ jsOrConf m.confidence ≤ 100) :
    0 ≤ avgConf l ∧ avgConf l ≤ 100 := by
  have hb := foldlConf_bounds l 0 h
  rw [zero_add] at hb
  have h0 : (0 : ℚ) ≤ totalConf l := hb.1
  have h1 : totalConf l ≤ 100 * l.length := hb.2
  unfold avgConf
  by_cases hlen : l.length = 0
  · have : l = [] := List.length_eq_zero.mp hlen
    subst this
    simp [totalConf]
  · have hpos : (0 : ℚ) < (l.length : ℚ) := by
      exact_mod_cast Nat.pos_of_ne_zero hlen
    rw [if_neg hlen]
    constructor
    · exact Int.floor_nonneg.mpr (div_nonneg h0 (le_of_lt hpos))
    · have hdiv : totalConf l / (l.length : ℚ) ≤ 100 := by
        rw [div_le_iff₀ hpos]
        linarith
      calc ⌊totalConf l / (l.length : ℚ)⌋ ≤ ⌊(100 : ℚ)⌋ :=
            Int.floor_le_floor hdiv
        _ = 100 := by norm_num

/-! ## Claims -/

/-- C2 (counterexample): the `ai_signals` audit table of `init.sql` has
no column holding the stockout risk — the persisted audit row does
*not* carry the risk value. -/
theorem ai_signals_no_risk_column :
    (ai_signals_columns.all
      (fun col => col != "risk" && col != "stockout_risk" &&
        col != "risk_score" && col != "risk_level")) = true := by
  decide

/-- C2 (amended): every `ai_signals` audit row carries material,
country, input price, forecast (`predicted_demand`), decision,
confidence and created timestamp, but no stockout risk column. -/
theorem ai_signals_audit_columns :
    (["material_id", "country_id", "input_price", "predicted_demand",
      "decision", "confidence_score", "created_at"].all
        (fun col => ai_signals_columns.contains col)) = true ∧
    ai_signals_columns.contains "risk" = false := by
  decide

/-- C4: the optimizer's price term is the forecast for the delivery
date `now + lead_time_days`: two forecast series that agree at
`t = lead_time` yield the same decision, whatever they do at `t = 0`
(the optimizer never reads the forecast for "today"). -/
theorem optimize_uses_delivery_date_price
    (f g : ℕ → ℚ) (currentPrice risk inventory : ℚ) (leadTimeDays : ℕ)
    (policy : Policy) (h : f leadTimeDays = g leadTimeDays) :
    optimize f currentPrice risk inventory leadTimeDays policy =
      optimize g currentPrice risk inventory leadTimeDays policy := by
  unfold optimize
  rw [h]

/-- C4 witness: two forecasts that disagree at `t = 0` (100 versus 10,
so they even disagree with the current price 60 on the trend
direction) but agree at the delivery date `t = 30` produce the same
decision. -/
theorem optimize_uses_delivery_date_price_witness :
    (fun t : ℕ => if t = 0 then (100 : ℚ) else 50) 30 =
      (fun t : ℕ => if t = 0 then (10 : ℚ) else 50) 30 ∧
    optimize (fun t => if t = 0 then (100 : ℚ) else 50) 60 0 0 30
        Policy.conservative =
      optimize (fun t => if t = 0 then (10 : ℚ) else 50) 60 0 0 30
        Policy.conservative :=
  ⟨by norm_num,
   optimize_uses_delivery_date_price _ _ _ _ _ _ _ (by norm_num)⟩

/-- C7: the intermittent-demand state machine is a deterministic
function of its inputs: a non-zero demand of size `s` after interval
`d` updates the state exactly by `P ← α·d + (1−α)·P` and
`Z ← α·s + (1−α)·Z` with `E` reset to 0; a zero observation updates it
exactly by `E ← E + 1`; the run consumes the observation sequence one
step at a time, and two runs on the same input sequence yield
identical `P` and `Z`. -/
theorem croston_deterministic_transitions :
    (∀ (α : ℚ) (st : CrostonState) (d s : ℚ),
      crostonStep α st (.demand d s) =
        ⟨α * d + (1 - α) * st.P, α * s + (1 - α) * st.Z, 0⟩) ∧
    (∀ (α : ℚ) (st : CrostonState),
      crostonStep α st .zero = ⟨st.P, st.Z, st.E + 1⟩) ∧
    (∀ (α : ℚ) (st : CrostonState) (l : List CrostonObs) (o : CrostonObs),
      runCroston α st (l ++ [o]) = crostonStep α (runCroston α st l) o) ∧
    (∀ (α : ℚ) (st : CrostonState) (l₁ l₂ : List CrostonObs), l₁ = l₂ →
      (runCroston α st l₁).P = (runCroston α st l₂).P ∧
      (runCroston α st l₁).Z = (runCroston α st l₂).Z) := by
  refine ⟨fun α st d s => rfl, fun α st => rfl, fun α st l o => ?_,
    fun α st l₁ l₂ h => by rw [h]; exact ⟨rfl, rfl⟩⟩
  simp [runCroston, List.foldl_append]

/-- C7 witness: a concrete two-observation run, replayed, reproduces
the same `P` and `Z`. -/
theorem croston_deterministic_transitions_witness :
    (runCroston (1/2) ⟨10, 20, 3⟩
        [CrostonObs.demand 4 6, CrostonObs.zero]).P =
      (runCroston (1/2) ⟨10, 20, 3⟩
        [CrostonObs.demand 4 6, CrostonObs.zero]).P ∧
    (runCroston (1/2) ⟨10, 20, 3⟩
        [CrostonObs.demand 4 6, CrostonObs.zero]).Z =
      (runCroston (1/2) ⟨10, 20, 3⟩
        [CrostonObs.demand 4 6, CrostonObs.zero]).Z :=
  croston_deterministic_transitions.2.2.2 (1/2) ⟨10, 20, 3⟩
    [CrostonObs.demand 4 6, CrostonObs.zero]
    [CrostonObs.demand 4 6, CrostonObs.zero] rfl

lemma clampConf_bounds (x : ℚ) : 0 ≤ clampConf x ∧ clampConf x ≤ 100 :=
  ⟨le_max_left 0 _, max_le (by norm_num) (min_le_left _ _)⟩

lemma predict_conf_clamped (s : Strategy) (ctx : PredictCtx) :
    ∃ x, (predict s ctx).confidence = clampConf x := by
  cases s
  exacts [⟨_, rfl⟩, ⟨_, rfl⟩, ⟨_, rfl⟩]

/-- C6: for every category of the fixed enumeration, `select` returns a
strategy whose `predict` output has confidence in [0,100]; for every
category outside the enumeration it fails with `UnknownCategory`
(never a silent default). -/
theorem select_strategy_contract :
    (∀ cat ∈ categories, ∃ s, select cat = .ok s ∧
      ∀ ctx, 0 ≤ (predict s ctx).confidence ∧
        (predict s ctx).confidence ≤ 100) ∧
    (∀ cat, cat ∉ categories →
      select cat = .error .UnknownCategory) := by
  constructor
  · intro cat hcat
    have hconf : ∀ (s : Strategy) (ctx : PredictCtx),
        0 ≤ (predict s ctx).confidence ∧ (predict s ctx).confidence ≤ 100 := by
      intro s ctx
      rcases predict_conf_clamped s ctx with ⟨x, hx⟩
      rw [hx]
      exact clampConf_bounds x
    fin_cases hcat
    · exact ⟨.gbm, rfl, hconf .gbm⟩
    · exact ⟨.lstm, rfl, hconf .lstm⟩
    · exact ⟨.croston, rfl, hconf .croston⟩
  · intro cat h
    simp only [categories, List.mem_cons, List.not_mem_nil, or_false,
      not_or] at h
    simp [select, h.1, h.2.1, h.2.2]

/-- C6 witness: the known category `Polymer` selects a strategy with an
in-range confidence; the unknown category `Quantum` fails with
`UnknownCategory`. -/
theorem select_strategy_contract_witness :
    (∃ s, select "Polymer" = .ok s ∧
      ∀ ctx, 0 ≤ (predict s ctx).confidence ∧
        (predict s ctx).confidence ≤ 100) ∧
    select "Quantum" = .error .UnknownCategory :=
  ⟨select_strategy_contract.1 "Polymer" (by decide),
   select_strategy_contract.2 "Quantum" (by decide)⟩

lemma optimize_quantity_imp_buy (f : ℕ → ℚ) (p risk inv : ℚ) (lt : ℕ)
    (pol : Policy)
    (h : (optimize f p risk inv lt pol).quantity ≠ none) :
    (optimize f p risk inv lt pol).decision = .BUY := by
  rcases pol <;> unfold optimize at h ⊢ <;> dsimp only at h ⊢ <;>
    split_ifs at h ⊢ <;> simp_all

/-- C5: every decision value the pipeline or the dashboard produces is
in the closed enumeration {BUY, WAIT, HOLD}: the optimizer's output
decision (with a quantity present only for BUY), its persisted string
form, both mock-data generators, and the badge rendered by
`createMaterialCard` for a feed entry whose decision is absent or in
the enumeration. -/
theorem decisions_closed_enumeration :
    (∀ (f : ℕ → ℚ) (p risk inv : ℚ) (lt : ℕ) (pol : Policy),
      ((optimize f p risk inv lt pol).decision = Decision.BUY ∨
       (optimize f p risk inv lt pol).decision = Decision.WAIT ∨
       (optimize f p risk inv lt pol).decision = Decision.HOLD) ∧
      ((optimize f p risk inv lt pol).quantity ≠ none →
        (optimize f p risk inv lt pol).decision = Decision.BUY)) ∧
    (∀ d : Decision,
      Decision.serialize d ∈ (["BUY", "WAIT", "HOLD"] : List String)) ∧
    (∀ (rng : ℕ → ℚ), ∀ m ∈ getMockData rng,
      m.signal ∈ (["BUY", "WAIT", "HOLD"] : List String)) ∧
    (∀ m ∈ generateMockData,
      ∃ d ∈ (["BUY", "WAIT", "HOLD"] : List String),
        m.decision = some d) ∧
    (∀ mat : CardInput,
      (mat.decision = none ∨
        ∃ d ∈ (["BUY", "WAIT", "HOLD"] : List String),
          mat.decision = some d) →
      (createMaterialCard mat).badge ∈
        (["BUY", "WAIT", "HOLD"] : List String)) := by
  refine ⟨fun f p risk inv lt pol => ⟨?_, optimize_quantity_imp_buy f p risk inv lt pol⟩,
    fun d => by cases d <;> simp [Decision.serialize],
    fun rng m hm => ?_, by decide, fun mat h => ?_⟩
  · rcases hd : (optimize f p risk inv lt pol).decision <;> simp
  · rcases List.mem_map.mp hm with ⟨q, _, rfl⟩
    dsimp only
    split <;> simp
  · rcases h with h | ⟨d, hd, hmd⟩
    · simp [createMaterialCard, jsOrStr, h]
    · fin_cases hd <;> simp [createMaterialCard, jsOrStr, hmd]

/-- C5 witness: a concrete optimizer call with a non-absent quantity is
a BUY, and a concrete HOLD feed entry renders the badge HOLD. -/
theorem decisions_closed_enumeration_witness :
    ((optimize (fun _ => 70) 60 0 0 30 Policy.conservative).decision =
        Decision.BUY ∨
     (optimize (fun _ => 70) 60 0 0 30 Policy.conservative).decision =
        Decision.WAIT ∨
     (optimize (fun _ => 70) 60 0 0 30 Policy.conservative).decision =
        Decision.HOLD) ∧
    (optimize (fun _ => 70) 60 0 0 30 Policy.conservative).decision =
      Decision.BUY ∧
    (createMaterialCard ⟨none, none, none, none, none, some "HOLD"⟩).badge ∈
      (["BUY", "WAIT", "HOLD"] : List String) :=
  ⟨(decisions_closed_enumeration.1 (fun _ => 70) 60 0 0 30
      Policy.conservative).1,
   (decisions_closed_enumeration.1 (fun _ => 70) 60 0 0 30
      Policy.conservative).2 (by norm_num [optimize, safetyStock]; exact Option.some_ne_none _),
   decisions_closed_enumeration.2.2.2.2
     ⟨none, none, none, none, none, some "HOLD"⟩
     (Or.inr ⟨"HOLD", by decide, rfl⟩)⟩

/-- C3: `getDecisionHistory` queries the audit store by recency: for
every database state it returns at most 10 records, the underlying
query result is ordered most-recent-first by `created_at`, and every
returned record pairs a persisted decision with its material name,
country name, input price and predicted demand (through the `parseFloat`
and `toISOString` conversions `pf` and `iso`). -/
theorem getDecisionHistory_recency (pf : String → ℚ) (iso : ℕ → String)
    (db : Db) :
    (getDecisionHistory pf iso (.ok db)).length ≤ 10 ∧
    List.Sorted (fun a b : QRow => b.created_at ≤ a.created_at)
      (historyQuery db) ∧
    ∀ r ∈ getDecisionHistory pf iso (.ok db),
      ∃ s ∈ db.ai_signals, ∃ m ∈ db.materials, ∃ cn ∈ db.countries,
        m.1 = s.material_id ∧ cn.1 = s.country_id ∧
        r = ⟨m.2, cn.2, pf s.input_price, pf s.predicted_demand,
             s.decision, iso s.created_at⟩ := by
  have hmap : getDecisionHistory pf iso (.ok db) =
      (historyQuery db).map (fun r =>
        ⟨r.material, r.country, pf r.price, pf r.prediction, r.signal,
         iso r.created_at⟩) := rfl
  refine ⟨?_, historyQuery_sorted db, ?_⟩
  · rw [hmap, List.length_map]
    unfold historyQuery
    exact List.length_take_le 10 _
  · intro r hr
    rw [hmap] at hr
    rcases List.mem_map.mp hr with ⟨q, hq, rfl⟩
    rcases historyQuery_mem hq with ⟨s, hs, m, hm, cn, hcn, h1, h2, rfl⟩
    exact ⟨s, hs, m, hm, cn, hcn, h1, h2, rfl⟩

/-- A one-row database state used to exercise the history view. -/
def dbWitness : Db :=
  ⟨[(1, "Copper")], [(1, "Egypt")], [⟨1, 1, "9000", "42", "BUY", "95", 100⟩]⟩

/-- C3 witness: on a concrete one-row database the history view returns
at most 10 records and the returned record traces back to the persisted
row. -/
theorem getDecisionHistory_recency_witness :
    (getDecisionHistory (fun _ => (0 : ℚ)) (fun _ => "t")
        (.ok dbWitness)).length ≤ 10 ∧
    ∃ s ∈ dbWitness.ai_signals, ∃ m ∈ dbWitness.materials,
      ∃ cn ∈ dbWitness.countries,
        m.1 = s.material_id ∧ cn.1 = s.country_id ∧
        (⟨"Copper", "Egypt", 0, 0, "BUY", "t"⟩ : DecisionRecord) =
          ⟨m.2, cn.2, (fun _ => (0 : ℚ)) s.input_price,
           (fun _ => (0 : ℚ)) s.predicted_demand, s.decision,
           (fun _ => "t") s.created_at⟩ :=
  ⟨(getDecisionHistory_recency (fun _ => (0 : ℚ)) (fun _ => "t")
      dbWitness).1,
   (getDecisionHistory_recency (fun _ => (0 : ℚ)) (fun _ => "t")
      dbWitness).2.2 ⟨"Copper", "Egypt", 0, 0, "BUY", "t"⟩ (by decide)⟩

/-- C9: `getDecisionHistory` never propagates a database exception: on
every failure of the underlying query it returns `[]`, and on success
it returns exactly the query rows with `price` and `prediction` parsed
to numbers and the timestamp serialized by `toISOString`. -/
theorem getDecisionHistory_never_throws (pf : String → ℚ)
    (iso : ℕ → String) :
    (∀ e : DbFailure, getDecisionHistory pf iso (.error e) = []) ∧
    (∀ db : Db, getDecisionHistory pf iso (.ok db) =
      (historyQuery db).map (fun r =>
        ⟨r.material, r.country, pf r.price, pf r.prediction, r.signal,
         iso r.created_at⟩)) :=
  ⟨fun _ => rfl, fun _ => rfl⟩

/-- C10: whenever every present confidence of the live feed lies in
[0,100], the aggregate confidence of `getScannerStatus` is an integer
(it lives in `ℤ`) within [0,100]; an absent confidence — or the value
0, which JavaScript's `||` treats as absent — contributes the default
85. -/
theorem getScannerStatus_confidence_range (ok : Bool) (c : Cache)
    (pf : String → ℚ) (rng : ℕ → ℚ) (dd : ℚ)
    (h : ∀ m ∈ getLiveMarketData ok c pf rng, ∀ v,
      m.confidence = some v → 0 ≤ v ∧ v ≤ 100) :
    (0 ≤ (getScannerStatus ok c pf rng dd).confidence ∧
     (getScannerStatus ok c pf rng dd).confidence ≤ 100) ∧
    jsOrConf (some 0) = 85 ∧ jsOrConf none = 85 := by
  refine ⟨?_, by simp [jsOrConf], rfl⟩
  exact avgConf_bounds (getLiveMarketData ok c pf rng)
    (fun m hm => jsOrConf_bounds m.confidence (h m hm))

/-- C10 witness: with the cache unreachable the feed is the mock list,
whose confidences are all 85, and the aggregate confidence is within
[0,100]. -/
theorem getScannerStatus_confidence_range_witness :
    (0 ≤ (getScannerStatus false (fun _ => none) (fun _ => 0)
        (fun _ => 0) 0).confidence ∧
     (getScannerStatus false (fun _ => none) (fun _ => 0)
        (fun _ => 0) 0).confidence ≤ 100) ∧
    jsOrConf (some 0) = 85 ∧ jsOrConf none = 85 :=
  getScannerStatus_confidence_range false (fun _ => none) (fun _ => 0)
    (fun _ => 0) 0 (by
      intro m hm v hv
      have hfeed : getLiveMarketData false (fun _ => none) (fun _ => 0)
          (fun _ => 0) = getMockData (fun _ => 0) := rfl
      rw [hfeed] at hm
      simp only [getMockData, MATERIALS, List.enum, List.enumFrom,
        List.map_cons, List.map_nil, List.mem_cons, List.not_mem_nil,
        or_false] at hm
      rcases hm with rfl | rfl | rfl | rfl | rfl | rfl | rfl | rfl <;>
        (obtain rfl : v = 85 := by simpa using hv.symm) <;> norm_num)

/-- A cache state with a real stored decision (`HOLD` for Aluminum) but
no price entry for the first material, Copper. -/
def staleCache : Cache := fun k =>
  if k = liveKey "Egypt" "Aluminum" "signal" then some "HOLD" else none

/-- C1 (counterexample): with a stored decision `HOLD` for Aluminum in
the cache but the first material's price key absent, the feed entry for
Aluminum carries the fabricated mock signal `WAIT` (and the mock price
1000, confidence 85) instead of the stored value — the feed substitutes
invented values for real ones. -/
theorem live_feed_substitutes_mock_for_stored :
    staleCache (liveKey "Egypt" "Aluminum" "signal") = some "HOLD" ∧
    (getLiveMarketData true staleCache (fun _ => 0) (fun _ => 0)).get? 1 =
      some ⟨"Aluminum", 1000, 0, "WAIT", 1000, some 85⟩ ∧
    (("WAIT" : String) != "HOLD") = true := by
  refine ⟨by decide, ?_, by decide⟩
  rw [getLiveMarketData_cacheMiss staleCache (fun _ => 0) (fun _ => 0)
    (by decide)]
  simp only [getMockData, MATERIALS, List.enum, List.enumFrom,
    List.map_cons, List.map_nil]
  norm_num

/-- C1 (amended): the feed is read from the hot cache only when the
first material's (`Copper`) price key is present; when the cache is
unreachable, or that single probed key is absent, the entire feed is
replaced by fabricated mock data (`getMockData`), not by stale
previously-stored values. -/
theorem getLiveMarketData_cache_or_mock (c : Cache) (pf : String → ℚ)
    (rng : ℕ → ℚ) :
    getLiveMarketData false c pf rng = getMockData rng ∧
    (c (liveKey "Egypt" "Copper" "price") = none →
      getLiveMarketData true c pf rng = getMockData rng) ∧
    (∀ v, c (liveKey "Egypt" "Copper" "price") = some v →
      getLiveMarketData true c pf rng = liveFromCache c pf) :=
  ⟨rfl, fun h => getLiveMarketData_cacheMiss c pf rng h,
   fun v hv => getLiveMarketData_cacheHit c pf rng v hv⟩

/-- C1 amended witness: an empty cache yields the mock feed; a cache
holding the Copper price yields the cache-read feed. -/
theorem getLiveMarketData_cache_or_mock_witness :
    getLiveMarketData true (fun _ => none) (fun _ => 0) (fun _ => 0) =
      getMockData (fun _ => 0) ∧
    getLiveMarketData true
        (fun k => if k = liveKey "Egypt" "Copper" "price"
                  then some "9000" else none)
        (fun _ => 0) (fun _ => 0) =
      liveFromCache
        (fun k => if k = liveKey "Egypt" "Copper" "price"
                  then some "9000" else none)
        (fun _ => 0) :=
  ⟨(getLiveMarketData_cache_or_mock (fun _ => none) (fun _ => 0)
      (fun _ => 0)).2.1 rfl,
   (getLiveMarketData_cache_or_mock _ (fun _ => 0) (fun _ => 0)).2.2
     "9000" (by decide)⟩

/-- A cache state holding a Copper price and a non-zero Copper trend. -/
def trendCache : Cache := fun k =>
  if k = liveKey "Egypt" "Copper" "price" then some "100"
  else if k = liveKey "Egypt" "Copper" "trend" then some "2.5"
  else none

/-- A concrete `parseFloat` for the two stored strings. -/
def pfNum : String → ℚ := fun s =>
  if s = "2.5" then 5/2 else if s = "100" then 100 else 0

/-- C8 (counterexample): with a stored trend of `2.5` in the cache (a
value parsing to 5/2 ≠ 0), the feed entry for Copper still displays
trend 0 — the displayed trend is a constant, not read from the cache
entry. -/
theorem live_feed_trend_is_constant :
    trendCache (liveKey "Egypt" "Copper" "trend") = some "2.5" ∧
    pfNum "2.5" = 5/2 ∧ (5/2 : ℚ) ≠ 0 ∧
    (getLiveMarketData true trendCache pfNum (fun _ => 0)).get? 0 =
      some ⟨"Copper", 100, 0, "N/A", 0, some 0⟩ := by
  refine ⟨by decide, by norm_num [pfNum], by norm_num, ?_⟩
  rw [getLiveMarketData_cacheHit trendCache pfNum (fun _ => 0) "100"
    (by decide)]
  have h1 : trendCache (liveKey "Egypt" "Copper" "price") = some "100" := by
    decide
  have h2 : trendCache (liveKey "Egypt" "Copper" "signal") = none := by
    decide
  have h3 : trendCache (liveKey "Egypt" "Copper" "forecast") = none := by
    decide
  have h4 : trendCache (liveKey "Egypt" "Copper" "confidence") = none := by
    decide
  simp only [liveFromCache, readLiveEntry, MATERIALS, List.map_cons,
    List.map_nil, h1, h2, h3, h4, List.get?_cons_zero]
  norm_num [pfNum]
  decide

/-- C8 (amended): cache entries are keyed by the (country, material)
pair (`live:${country}:${mat}:${field}`); when the feed reads the
cache, each material's displayed price, signal (decision), forecast and
confidence come from the cache entry for (`Egypt`, material), while the
displayed trend is the constant 0 (the fetched trend field is
discarded) and the stored risk/updated-timestamp fields are not read. -/
theorem live_feed_fields_from_keyed_entries (c : Cache)
    (pf : String → ℚ) (rng : ℕ → ℚ) (v : String)
    (hv : c (liveKey "Egypt" "Copper" "price") = some v) :
    ∀ mat ∈ MATERIALS, ∃ m ∈ getLiveMarketData true c pf rng,
      m.name = mat ∧
      m.price = (match c (liveKey "Egypt" mat "price") with
                 | some w => pf w | none => 0) ∧
      m.signal = (match c (liveKey "Egypt" mat "signal") with
                  | some w => w | none => "N/A") ∧
      m.forecast = (match c (liveKey "Egypt" mat "forecast") with
                    | some w => pf w | none => 0) ∧
      m.confidence = some (match c (liveKey "Egypt" mat "confidence") with
                           | some w => pf w | none => 0) ∧
      m.trend = 0 := by
  intro mat hmat
  rw [getLiveMarketData_cacheHit c pf rng v hv]
  exact ⟨readLiveEntry c pf mat, List.mem_map_of_mem _ hmat,
    rfl, rfl, rfl, rfl, rfl, rfl⟩

/-- C8 amended witness: on the concrete `trendCache`, the Copper feed
entry reads price/signal/forecast/confidence from the Copper-keyed
entry and has constant trend 0. -/
theorem live_feed_fields_from_keyed_entries_witness :
    ∃ m ∈ getLiveMarketData true trendCache pfNum (fun _ => 0),
      m.name = "Copper" ∧
      m.price = (match trendCache (liveKey "Egypt" "Copper" "price") with
                 | some w => pfNum w | none => 0) ∧
      m.signal = (match trendCache (liveKey "Egypt" "Copper" "signal") with
                  | some w => w | none => "N/A") ∧
      m.forecast = (match trendCache (liveKey "Egypt" "Copper" "forecast") with
                    | some w => pfNum w | none => 0) ∧
      m.confidence = some (match trendCache (liveKey "Egypt" "Copper" "confidence") with
                           | some w => pfNum w | none => 0) ∧
      m.trend = 0 :=
  live_feed_fields_from_keyed_entries trendCache pfNum (fun _ => 0)
    "100" (by decide) "Copper" (by decide)
